import Mathlib

/-
Verification of the generic probing-and-matching engine of the osint-d2
repository.  The definitions below are shallow embeddings of the Python
sources:

  * src/adapters/sherlock_runner.py   (manifest dialect runner)
  * src/adapters/site_lists/runner.py (site-list dialect runner)
  * src/cli/main.py                   (strict false-positive filter)

Machine-level conventions of the embedding:

  * Python character classification (isalnum, lower, upper, strip) is
    modelled on the ASCII fragment, which is exact for every catalog name,
    URL fragment and marker appearing in this development.
  * Python dictionaries with heterogeneous JSON values are modelled by
    small inductive types that mirror exactly the isinstance checks the
    code performs: a field that the code probes with isinstance(v, str)
    becomes a sum of a string constructor and a non-string constructor.
  * Exceptions are modelled with Option / Except: a transport failure is
    the constructor TResult.exc, a raising progress callback is a Boolean
    valued function, and a propagated exception is Except.error.
-/

namespace OsintD2

/-! ### Substring machinery (Python `in` on strings) -/

/-- Does the needle match at the head of the haystack? -/
def charsMatch : List Char → List Char → Bool
  | [], _ => true
  | _ :: _, [] => false
  | a :: as, b :: bs => a == b && charsMatch as bs

/-- Does the needle occur anywhere in the haystack? -/
def charsFind (needle : List Char) : List Char → Bool
  | [] => charsMatch needle []
  | b :: bs => charsMatch needle (b :: bs) || charsFind needle bs

/-- Python `needle in hay` for strings: substring occurrence. -/
def strIn (needle hay : String) : Bool :=
  charsFind needle.data hay.data

/-- Python str.lower on the ASCII fragment. -/
def strLower (s : String) : String :=
  String.mk (s.data.map Char.toLower)

/-- Python str.upper on the ASCII fragment. -/
def strUpper (s : String) : String :=
  String.mk (s.data.map Char.toUpper)

/-- Python str.strip with no argument on the ASCII fragment. -/
def strTrim (s : String) : String :=
  String.mk (((s.data.dropWhile Char.isWhitespace).reverse.dropWhile
    Char.isWhitespace).reverse)

/-- Left-to-right non-overlapping replacement; the Nat argument counts
pattern characters still to skip after a match. -/
def replace_go (pat rep : List Char) : Nat → List Char → List Char
  | _, [] => []
  | Nat.succ k, _c :: cs => replace_go pat rep k cs
  | 0, c :: cs =>
      if charsMatch pat (c :: cs) then
        rep ++ replace_go pat rep (pat.length - 1) cs
      else c :: replace_go pat rep 0 cs

/-- Python str.replace (non-overlapping, left to right). -/
def str_replace (s pat rep : String) : String :=
  String.mk (replace_go pat.data rep.data 0 s.data)

/-! ### JSON-ish field values

The manifest is JSON; the runner probes each field with isinstance checks.
Each inductive below carries exactly the distinctions the code can observe. -/

/-- A JSON value probed with isinstance(v, str): a string or something else. -/
inductive JStrV where
  | str (s : String)
  | nonstr
deriving DecidableEq, Repr

/-- A JSON value probed with isinstance(v, int): an int or something else. -/
inductive JIntV where
  | int (n : Int)
  | nonint
deriving DecidableEq, Repr

/-- The errorType field: a string, a list, or anything else (including absent). -/
inductive ErrType where
  | str (s : String)
  | list (xs : List JStrV)
  | other
deriving DecidableEq, Repr

/-- The errorCode field: an int, a list, or anything else (including absent). -/
inductive ErrCode where
  | int (n : Int)
  | list (xs : List JIntV)
  | other
deriving DecidableEq, Repr

/-- The errorMsg field: a string, a list, or anything else (including absent). -/
inductive Needle where
  | str (s : String)
  | list (xs : List JStrV)
  | other
deriving DecidableEq, Repr

/-- A field holding either a string or any non-string value (including absent). -/
inductive UrlV where
  | str (s : String)
  | other
deriving DecidableEq, Repr

/-- sherlock_runner.py lines 97-103: normalize errorType to a list of strings. -/
def error_types_of : ErrType → List String
  | ErrType.str s => [s]
  | ErrType.list xs => xs.filterMap (fun x => match x with
      | JStrV.str s => some s
      | JStrV.nonstr => none)
  | ErrType.other => []

/-- sherlock_runner.py lines 129-135: normalize errorCode to an optional int list. -/
def error_codes_of : ErrCode → Option (List Int)
  | ErrCode.int n => some [n]
  | ErrCode.list xs => some (xs.filterMap (fun x => match x with
      | JIntV.int n => some n
      | JIntV.nonint => none))
  | ErrCode.other => none

/-- The marker strings carried by an errorMsg value (string elements only). -/
def needle_strings : Needle → List String
  | Needle.str s => [s]
  | Needle.list xs => xs.filterMap (fun x => match x with
      | JStrV.str s => some s
      | JStrV.nonstr => none)
  | Needle.other => []

/-- sherlock_runner.py `_contains_any`: falsy needle gives False; a string
needle is a substring test; a list needle succeeds when any string element
occurs; any other shape gives False. -/
def contains_any (text : String) (needle : Needle) : Bool :=
  match needle with
  | Needle.str s => if s = "" then false else strIn s text
  | Needle.list xs =>
      if xs = [] then false
      else xs.any (fun x => match x with
        | JStrV.str n => strIn n text
        | JStrV.nonstr => false)
  | Needle.other => false

/-! ### Sherlock manifest model -/

/-- One manifest entry, with exactly the fields `run_sherlock_username` reads.
The isNSFW field is stored as the Python truthiness of its JSON value. -/
structure SherlockInfo where
  url : UrlV
  errorType : ErrType
  errorCode : ErrCode
  errorMsg : Needle
  request_method : UrlV
  isNSFW : Bool
deriving DecidableEq, Repr

/-- A manifest value: a JSON object (modelled entry) or any non-object. -/
inductive MVal where
  | dict (info : SherlockInfo)
  | nondict
deriving DecidableEq, Repr

/-- sherlock_runner.py lines 106-109: request method defaults to GET when the
field is not a string, and is upper-cased. -/
def request_method_of (i : SherlockInfo) : String :=
  match i.request_method with
  | UrlV.str s => strUpper s
  | UrlV.other => "GET"

/-- sherlock_runner.py lines 76-83: the filtering loop over the manifest.
Skips the "$schema" sentinel key, non-object values, and (with no_nsfw)
NSFW-flagged entries. -/
def sherlock_items (m : List (String × MVal)) (no_nsfw : Bool) :
    List (String × SherlockInfo) :=
  m.filterMap (fun p =>
    if p.1 = "$schema" then none
    else match p.2 with
      | MVal.nondict => none
      | MVal.dict info =>
          if no_nsfw && info.isNSFW then none else some (p.1, info))

/-- sherlock_runner.py `_interpolate`.  The str.format fallback branch is
modelled as the identity: it is only reached for templates without a `\x7b\x7d`
placeholder, no claim depends on positional-format templates, and a raising
format call also returns the template unchanged. -/
def interpolate (url_template username : String) : String :=
  if strIn "{}" url_template then str_replace url_template "{}" username
  else url_template

/-- sherlock_runner.py lines 123-151: the existence cascade of `check`.
Each branch mirrors one `if ... and exists is None` block. -/
def classify (ets : List String) (ec : ErrCode) (em : Needle)
    (status : Int) (text : String) : Bool :=
  let e0 : Option Bool :=
    if "response_url" ∈ ets then some (decide (200 ≤ status ∧ status < 300))
    else none
  let e1 : Option Bool :=
    match e0 with
    | some b => some b
    | none =>
        if "status_code" ∈ ets then
          some (if status < 200 ∨ 300 ≤ status then false
                else if (match error_codes_of ec with
                  | some cs => !cs.isEmpty && decide (status ∈ cs)
                  | none => false) then false
                else true)
        else none
  let e2 : Option Bool :=
    match e1 with
    | some b => some b
    | none =>
        if "message" ∈ ets then some (!(contains_any text em))
        else none
  match e2 with
  | some b => b
  | none => decide (200 ≤ status ∧ status < 300)

/-! ### Network slug -/

/-- Drop leading dash characters. -/
def drop_dash : List Char → List Char
  | [] => []
  | c :: cs => if c = '-' then drop_dash cs else c :: cs

/-- Python s.strip("-"): drop dashes from both ends. -/
def strip_dashes (l : List Char) : List Char :=
  ((drop_dash ((drop_dash l).reverse)).reverse)

/-- The character mapping of the `_slug` loop body: alphanumerics and the two
separator characters are kept, everything else becomes a dash. -/
def slug_char (c : Char) : Char :=
  if c.isAlphanum then c
  else if c = '-' ∨ c = '_' then c
  else '-'

/-- The accumulator loop of `_slug` (builds the out list front to back). -/
def slug_loop (acc : List Char) : List Char → List Char
  | [] => acc.reverse
  | c :: cs => slug_loop (slug_char c :: acc) cs

/-- `_slug` from sherlock_runner.py lines 25-35 (an identical copy lives in
site_lists/runner.py lines 25-35): lower-case the stripped name, map each
character through `slug_char`, strip dashes from both ends, truncate to 60
characters, and fall back to "site" when empty. -/
def slug (name : String) : String :=
  let out := slug_loop [] (strLower (strTrim name)).data
  let s := strip_dashes out
  match s.take 60 with
  | [] => "site"
  | l => String.mk l

/-- The final fallback-and-truncate shape shared by slug and slug_spec (a
proof-side abbreviation, definitionally equal to the match inside both). -/
def slug_final (m : List Char) : String :=
  match m with
  | [] => "site"
  | l => String.mk l

/-! ### Metadata extractor (spec-modelled) -/

/-- Drop everything up to and including the first occurrence of the marker. -/
def drop_through (marker : List Char) : List Char → List Char
  | [] => []
  | c :: cs =>
      if charsMatch marker (c :: cs) then (c :: cs).drop marker.length
      else drop_through marker cs

/-- Take everything before the first occurrence of the marker. -/
def take_until (marker : List Char) : List Char → List Char
  | [] => []
  | c :: cs =>
      if charsMatch marker (c :: cs) then []
      else c :: take_until marker cs

/-- The text strictly between the first occurrence of open_t and the next
occurrence of close_t. -/
def text_between (html open_t close_t : String) : String :=
  String.mk (take_until close_t.data (drop_through open_t.data html.data))

/-- The structured result of the page-metadata extractor. -/
structure HtmlMeta where
  title : Option String
  meta_description : Option String
  og_image : Option String
deriving DecidableEq, Repr

/-- Modelled from the spec: `extract_html_metadata` lives in
adapters/http_client.py, which is not among the provided sources.  Spec
section 4.3: a best-effort pure parse of the title tag, the description meta
tag and the social preview image tag, resolving relative image URLs against
the base URL, returning an empty map on unparsable input and never raising.
A signal is emitted only when its marker tag occurs in the body, so the empty
body yields the empty map. -/
def extract_html_metadata (html base_url : String) : HtmlMeta :=
  { title :=
      if strIn "<title>" html then some (text_between html "<title>" "</title>")
      else none
    meta_description :=
      if strIn "<meta name=description" html then
        some (text_between html "<meta name=description content=" ">")
      else none
    og_image :=
      if strIn "og:image" html then
        let raw := text_between html "og:image" ">"
        some (if charsMatch "http".data raw.data then raw else base_url ++ raw)
      else none }

/-! ### Profile records

SocialProfile (core/domain/models.py is not in the sources, but every field
below is written and read by the provided runners and CLI filter).  The
metadata dictionary is modelled as a structure holding exactly the keys the
provided code reads downstream; keys that no provided code reads (url_main,
errorType, category, input_operation) are elided. -/

/-- A metadata dictionary value probed with isinstance(v, str). -/
inductive MetaV where
  | missing
  | str (s : String)
  | nonstr
deriving DecidableEq, Repr

/-- The metadata keys of an emitted profile that the provided code reads. -/
structure PMeta where
  source : MetaV
  site_name : String
  status_code : Int
  final_url : Option String
  title : MetaV
  meta_description : MetaV
  og_image : MetaV
deriving DecidableEq, Repr

/-- The engine output record (SocialProfile). -/
structure SocialProfile where
  url : String
  username : String
  network_name : String
  existe : Bool
  metadata : PMeta
  bio : Option String
  imagen_url : Option String
deriving DecidableEq, Repr

/-- Lift an optional extracted string into a metadata dictionary entry:
the key is present exactly when the extractor produced the signal. -/
def metaVOf : Option String → MetaV
  | some s => MetaV.str s
  | none => MetaV.missing

/-! ### The per-task check of the manifest runner -/

/-- The outcome of one HTTP request: a response or a raised transport
exception. -/
inductive TResult where
  | ok (status : Int) (finalUrl : String) (body : String)
  | exc
deriving DecidableEq, Repr

/-- sherlock_runner.py lines 91-178: the per-task `check` coroutine, with the
HTTP client abstracted as a function from (method, url) to a transport
outcome.  Returns the emitted record on a positive verdict and none
otherwise (invalid url template, transport exception, negative verdict). -/
def sherlock_check (transport : String → String → TResult)
    (site_name : String) (info : SherlockInfo) (username : String) :
    Option SocialProfile :=
  match info.url with
  | UrlV.other => none
  | UrlV.str url_t =>
    if url_t = "" then none
    else
      let url := interpolate url_t username
      let ets := error_types_of info.errorType
      let rm := request_method_of info
      match (if rm = "HEAD" then transport "HEAD" url else transport "GET" url) with
      | TResult.exc => none
      | TResult.ok status final_url body =>
        let text := if rm = "HEAD" then "" else body
        let ex := classify ets info.errorCode info.errorMsg status text
        if !ex then none
        else
          let hm := extract_html_metadata text final_url
          some { url := final_url
                 username := username
                 network_name := slug site_name
                 existe := true
                 metadata :=
                   { source := MetaV.str "sherlock"
                     site_name := site_name
                     status_code := status
                     final_url := some final_url
                     title := metaVOf hm.title
                     meta_description := metaVOf hm.meta_description
                     og_image := metaVOf hm.og_image }
                 bio := hm.meta_description
                 imagen_url := hm.og_image }

/-! ### The manifest runner skeleton (task creation, progress, exceptions) -/

/-- The label attached to one probe task. -/
def task_label (site_name username : String) : String :=
  "sherlock:" ++ site_name ++ ":" ++ username

/-- sherlock_runner.py lines 180-187: one task per (site, identifier) pair,
in submission order. -/
def sherlock_tasks (m : List (String × MVal)) (usernames : List String)
    (no_nsfw : Bool) : List (String × SherlockInfo × String) :=
  (sherlock_items m no_nsfw).flatMap
    (fun it => usernames.map (fun u => (it.1, it.2, u)))

/-- sherlock_runner.py line 84: the total reported to the progress callback. -/
def sherlock_total (m : List (String × MVal)) (usernames : List String)
    (no_nsfw : Bool) : Nat :=
  (sherlock_items m no_nsfw).length * max 1 usernames.length

/-- sherlock_runner.py lines 62-203: the control skeleton of
`run_sherlock_username`.  The per-task outcome is abstracted by a function
(instantiate it with `sherlock_check transport` to recover the full runner);
the progress callback is a Boolean function where true means the invocation
raises.  Completion order of asyncio.as_completed is abstracted as submission
order: the done counter delivers 1..n in either case.  The initial tick on
lines 85-87 is outside any try block, so a raising initial tick propagates
(Except.error); raising completion ticks (lines 194-199) are swallowed, the
tick still having been invoked.  Returns the found records and the list of
(done, total, label) callback invocations. -/
def run_sherlock_username (m : List (String × MVal)) (usernames : List String)
    (no_nsfw : Bool) (cb : Option (Nat → Nat → String → Bool))
    (outcome : String → SherlockInfo → String → Option SocialProfile) :
    Except Unit (List SocialProfile × List (Nat × Nat × String)) :=
  let items := sherlock_items m no_nsfw
  let total := items.length * max 1 usernames.length
  let tasks := sherlock_tasks m usernames no_nsfw
  let found := tasks.filterMap (fun t => outcome t.1 t.2.1 t.2.2)
  match cb with
  | none => Except.ok (found, [])
  | some raises =>
      if raises 0 total "" then Except.error ()
      else
        Except.ok (found,
          (0, total, "") ::
            tasks.enum.map (fun p => (p.1 + 1, total, task_label p.2.1 p.2.2.2)))

/-! ### Site-list dialect (site_lists/runner.py) -/

/-- One username-oriented site-list entry (site_lists/models.py is not among
the sources; the fields are exactly those the provided runner reads). -/
structure UsernameSite where
  name : String
  uri_check : String
  cat : Option String
  e_code : Int
  e_string : String
  m_code : Option Int
  m_string : Option String
deriving DecidableEq, Repr

/-- site_lists/runner.py `_is_nsfw`: falsy category is not NSFW, otherwise
the lower-cased category must contain "nsfw". -/
def site_is_nsfw (category : Option String) : Bool :=
  match category with
  | none => false
  | some c => if c = "" then false else strIn "nsfw" (strLower c)

/-- site_lists/runner.py `_match_found` lines 44-53: the four-condition
verdict of the site-list dialect. -/
def match_found (text : String) (status_code : Int) (e_code : Int)
    (e_string : String) (m_code : Option Int) (m_string : Option String) :
    Bool :=
  if status_code ≠ e_code then false
  else if !(strIn e_string text) then false
  else if (match m_code with
    | some mc => decide (status_code = mc)
    | none => false) then false
  else if (match m_string with
    | some ms => !(ms = "") && strIn ms text
    | none => false) then false
  else true

/-- The category rejection test of site_lists/runner.py lines 71-72: the
categories set is truthy, the entry category is truthy, and the lower-cased
entry category is not a member. -/
def site_cat_reject (categories : Option (List String)) (cat : Option String) :
    Bool :=
  (match categories with
    | some cl => !cl.isEmpty
    | none => false)
  && (match cat with
    | some c => !(c = "")
    | none => false)
  && !(decide (strLower (cat.getD "") ∈ categories.getD []))

/-- site_lists/runner.py lines 67-73 (the identical loop is repeated at lines
137-141 for email sites): the catalog filter of the site-list runner. -/
def filter_username_sites (sites : List UsernameSite)
    (categories : Option (List String)) (no_nsfw : Bool) :
    List UsernameSite :=
  sites.filterMap (fun s =>
    if no_nsfw && site_is_nsfw s.cat then none
    else if site_cat_reject categories s.cat then none
    else some s)

/-- site_lists/runner.py lines 77-118: the per-task `check` of the username
site-list runner, with the already-received transport outcome as argument. -/
def site_check (site : UsernameSite) (username : String) (resp : TResult) :
    Option SocialProfile :=
  match resp with
  | TResult.exc => none
  | TResult.ok status final_url body =>
    let text := body
    if !(match_found text status site.e_code site.e_string site.m_code
          site.m_string) then none
    else
      let hm := extract_html_metadata text final_url
      some { url := final_url
             username := username
             network_name := slug site.name
             existe := true
             metadata :=
               { source := MetaV.str "site_list"
                 site_name := site.name
                 status_code := status
                 final_url := some final_url
                 title := metaVOf hm.title
                 meta_description := metaVOf hm.meta_description
                 og_image := metaVOf hm.og_image }
             bio := hm.meta_description
             imagen_url := hm.og_image }

/-! ### The strict false-positive filter (cli/main.py) -/

/-- cli/main.py lines 179-184. -/
def STRICT_SHERLOCK_DENYLIST : List String :=
  ["avizo", "fanpop", "hubski"]

/-- cli/main.py lines 186-199. -/
def STRICT_SUSPICIOUS_URL_PARTS : List String :=
  ["login", "sign_in", "consent", "privacy", "cookie", "redirect",
   "return_url=", "callbackurl=", "search?", "search/?",
   "vendor_not_found", "nastaveni-souhlasu"]

/-- cli/main.py line 222: the URL the filter inspects, the final_url metadata
entry when truthy, the record URL otherwise. -/
def effective_final_url (p : SocialProfile) : String :=
  match p.metadata.final_url with
  | some s => if s = "" then p.url else s
  | none => p.url

/-- cli/main.py `_strict_keep_profile` lines 202-239. -/
def strict_keep_profile (profile : SocialProfile) (username : String) : Bool :=
  if !profile.existe then false
  else if profile.metadata.source ≠ MetaV.str "sherlock" then true
  else if profile.network_name ∈ STRICT_SHERLOCK_DENYLIST then false
  else
    let final_url_l := strLower (effective_final_url profile)
    if STRICT_SUSPICIOUS_URL_PARTS.any (fun part => strIn part final_url_l)
    then false
    else
      let username_l := strLower username
      if strIn username_l final_url_l then true
      else if (match profile.metadata.title with
        | MetaV.str t => strIn username_l (strLower t)
        | _ => false) then true
      else if (match profile.metadata.meta_description with
        | MetaV.str d => strIn username_l (strLower d)
        | _ => false) then true
      else false

/-! ### Claim-side reformulation for the slug (amended C9) -/

/-- The amended slug description, written with standard combinators: map each
character of the lower-cased trimmed name through the per-character
replacement (no collapsing of runs), strip dashes from both ends with
dropWhile, truncate to 60 characters, and fall back to "site" when empty. -/
def slug_spec (name : String) : String :=
  let mapped := (strLower (strTrim name)).data.map slug_char
  let stripped :=
    ((mapped.dropWhile (fun c => c = '-')).reverse.dropWhile
      (fun c => c = '-')).reverse
  match stripped.take 60 with
  | [] => "site"
  | l => String.mk l

/-! ### Concrete inputs for counterexamples and witnesses -/

/-- A minimal valid manifest entry using the status_code rule. -/
def demo_info : SherlockInfo :=
  { url := UrlV.str "https://one.example/{}"
    errorType := ErrType.str "status_code"
    errorCode := ErrCode.int 404
    errorMsg := Needle.other
    request_method := UrlV.other
    isNSFW := false }

/-- A one-entry manifest. -/
def demo_manifest : List (String × MVal) := [("demo", MVal.dict demo_info)]

/-- A HEAD-method manifest entry using the message rule. -/
def head_info : SherlockInfo :=
  { url := UrlV.str "https://head.example/{}"
    errorType := ErrType.str "message"
    errorCode := ErrCode.other
    errorMsg := Needle.str "Page not found"
    request_method := UrlV.str "HEAD"
    isNSFW := false }

/-- A transport whose every response is a 404 page that contains the
not-found marker of head_info. -/
def head_transport : String → String → TResult :=
  fun _ _ => TResult.ok 404 "https://head.example/alice" "Page not found"

/-- A deny-listed manifest-sourced record whose final URL contains the
identifier alice. -/
def c2_profile : SocialProfile :=
  { url := "https://avizo.example/alice"
    username := "alice"
    network_name := "avizo"
    existe := true
    metadata :=
      { source := MetaV.str "sherlock"
        site_name := "Avizo"
        status_code := 200
        final_url := some "https://avizo.example/alice"
        title := MetaV.missing
        meta_description := MetaV.missing
        og_image := MetaV.missing }
    bio := none
    imagen_url := none }

/-- A manifest-sourced record off the deny-list, with no suspicious URL
fragment and no occurrence of the identifier alice anywhere. -/
def c3_profile : SocialProfile :=
  { url := "https://demo.example/items/12345"
    username := "alice"
    network_name := "demo"
    existe := true
    metadata :=
      { source := MetaV.str "sherlock"
        site_name := "Demo"
        status_code := 200
        final_url := some "https://demo.example/items/12345"
        title := MetaV.missing
        meta_description := MetaV.missing
        og_image := MetaV.missing }
    bio := none
    imagen_url := none }

/-- A manifest-sourced record off the deny-list whose final URL contains the
identifier alice. -/
def kept_profile : SocialProfile :=
  { url := "https://demo.example/alice"
    username := "alice"
    network_name := "demo"
    existe := true
    metadata :=
      { source := MetaV.str "sherlock"
        site_name := "Demo"
        status_code := 200
        final_url := some "https://demo.example/alice"
        title := MetaV.missing
        meta_description := MetaV.missing
        og_image := MetaV.missing }
    bio := none
    imagen_url := none }

/-- A site-list entry with no category. -/
def c7_site : UsernameSite :=
  { name := "demo"
    uri_check := "https://x.example/{account}"
    cat := none
    e_code := 200
    e_string := "ok"
    m_code := none
    m_string := none }

/-! ## Theorems -/

/-- Claim C4: classify follows the fixed precedence response_url over
status_code over message over fallback.  If the rule declares response_url
then exists iff the status is in [200,300), overriding any status_code or
message markers; otherwise if it declares status_code then exists is false
when the status is outside [200,300) or in the not-found-code set, and true
for every other status in [200,300); with notFoundCodes consisting of 404,
status 200 gives true, 404 gives false, 500 gives false. -/
theorem classify_precedence (et : ErrType) (ec : ErrCode) (em : Needle)
    (status : Int) (text : String) :
    ("response_url" ∈ error_types_of et →
        classify (error_types_of et) ec em status text
          = decide (200 ≤ status ∧ status < 300))
  ∧ ("response_url" ∉ error_types_of et → "status_code" ∈ error_types_of et →
        classify (error_types_of et) ec em status text
          = decide ((200 ≤ status ∧ status < 300)
              ∧ status ∉ (error_codes_of ec).getD []))
  ∧ classify ["status_code"] (ErrCode.int 404) Needle.other 200 "" = true
  ∧ classify ["status_code"] (ErrCode.int 404) Needle.other 404 "" = false
  ∧ classify ["status_code"] (ErrCode.int 404) Needle.other 500 "" = false := by
  refine ⟨?_, ?_, by decide, by decide, by decide⟩
  · intro h
    simp [classify, h]
  · intro h1 h2
    simp only [classify, if_neg h1, if_pos h2]
    by_cases hr : status < 200 ∨ 300 ≤ status
    · have hnot : ¬(200 ≤ status ∧ status < 300) := by omega
      simp [hr, hnot]
    · have hin : 200 ≤ status ∧ status < 300 := by omega
      rcases hec : error_codes_of ec with _ | cs
      · simp [hr, hin]
      · by_cases hm : status ∈ cs
        · have hne : cs ≠ [] := by
            intro hnil
            rw [hnil] at hm
            exact absurd hm (List.not_mem_nil status)
          simp [hr, hm, hne, hin]
        · simp [hr, hm, hin]

/-- Witness for C4: a rule declaring response_url classifies a 404 as
not-existing even though the status_code marker is also absent. -/
theorem classify_precedence_witness :
    classify ["response_url"] (ErrCode.int 404) Needle.other 404 "" = false := by
  have h := (classify_precedence (ErrType.str "response_url") (ErrCode.int 404)
    Needle.other 404 "").1 (by decide)
  simpa using h

/-- The any-fold over raw list elements equals the any-fold over the string
elements only. -/
theorem any_needle_strings (xs : List JStrV) (text : String) :
    (xs.any (fun x => match x with
      | JStrV.str n => strIn n text
      | JStrV.nonstr => false))
      = (xs.filterMap (fun x => match x with
          | JStrV.str s => some s
          | JStrV.nonstr => none)).any (fun n => strIn n text) := by
  induction xs with
  | nil => rfl
  | cons x xs ih => cases x <;> simp [ih]

/-- Claim C5: when the rule declares a message marker and neither
response_url nor status_code decides first, exists is true iff none of the
marker strings occurs in the body as a case-sensitive substring, regardless
of the HTTP status; a rule declaring a marker is one whose errorMsg is not
the empty string (a falsy marker counts as no marker in the source). -/
theorem classify_message (et : ErrType) (ec : ErrCode) (em : Needle)
    (status : Int) (text : String)
    (h1 : "response_url" ∉ error_types_of et)
    (h2 : "status_code" ∉ error_types_of et)
    (h3 : "message" ∈ error_types_of et)
    (h4 : ∀ s, em = Needle.str s → s ≠ "") :
    classify (error_types_of et) ec em status text = true
      ↔ ∀ s ∈ needle_strings em, strIn s text = false := by
  simp only [classify, if_neg h1, if_neg h2, if_pos h3]
  cases em with
  | str s =>
      have hs : s ≠ "" := h4 s rfl
      simp [contains_any, needle_strings, hs]
  | list xs =>
      rcases hxs : xs with _ | ⟨x, rest⟩
      · simp [contains_any, needle_strings]
      · simp only [contains_any, needle_strings]
        rw [if_neg (by simp), any_needle_strings]
        simp only [Bool.not_eq_true', List.any_eq_false, Bool.not_eq_true]
  | other => simp [contains_any, needle_strings]

/-- Witness for C5: a message rule whose marker is absent from the body
classifies the probe as existing even at status 500. -/
theorem classify_message_witness :
    classify ["message"] ErrCode.other (Needle.str "Page not found") 500 "ok"
      = true := by
  have h := classify_message (ErrType.str "message") ErrCode.other
    (Needle.str "Page not found") 500 "ok" (by decide) (by decide) (by decide)
    (by intro s hs; cases hs; decide)
  exact h.mpr (by decide)

/-- Claim C6: in the site-list dialect the existence verdict is the single
boolean conjunction: observed status equals the expected status, the
expected substring occurs in the body, the false-positive status is absent
or differs from the observed status, and the false-positive substring is
absent or does not occur in the body (an empty configured false-positive
string is falsy and counts as absent in the source); the per-task check
emits a record exactly according to this boolean, with no manifest-dialect
precedence layered on top. -/
theorem site_match_characterization (site : UsernameSite) (username : String)
    (status : Int) (final_url body : String) :
    (match_found body status site.e_code site.e_string site.m_code
        site.m_string = true
      ↔ (status = site.e_code ∧ strIn site.e_string body = true
          ∧ (∀ c, site.m_code = some c → status ≠ c)
          ∧ (∀ s, site.m_string = some s → s ≠ "" → strIn s body = false)))
  ∧ ((site_check site username (TResult.ok status final_url body)).isSome
      = match_found body status site.e_code site.e_string site.m_code
          site.m_string) := by
  constructor
  · simp only [match_found]
    by_cases h1 : status ≠ site.e_code
    · simp [h1]
    · push_neg at h1
      rcases hmc : site.m_code with _ | mc <;>
        rcases hms : site.m_string with _ | ms
      · by_cases h2 : strIn site.e_string body = true <;> simp [h1, h2]
      · by_cases h2 : strIn site.e_string body = true <;>
          by_cases h3 : ms = "" <;>
          by_cases h4 : strIn ms body = true <;>
          simp [h1, h2, h3, h4]
      · by_cases h2 : strIn site.e_string body = true <;>
          by_cases h3 : status = mc <;>
          simp [h1, h2, h3]
      · by_cases h2 : strIn site.e_string body = true <;>
          by_cases h3 : status = mc <;>
          by_cases h4 : ms = "" <;>
          by_cases h5 : strIn ms body = true <;>
          simp [h1, h2, h3, h4, h5]
  · simp only [site_check]
    by_cases h : match_found body status site.e_code site.e_string site.m_code
        site.m_string = true
    · simp [h]
    · rw [Bool.not_eq_true] at h
      simp [h]

/-- Counterexample to claim C2: a deny-listed manifest-sourced record whose
final URL contains /alice for identifier alice is dropped by the strict
filter, although the claim says identifier evidence keeps it. -/
theorem strict_denylist_counterexample :
    strict_keep_profile c2_profile "alice" = false
  ∧ c2_profile.network_name ∈ STRICT_SHERLOCK_DENYLIST
  ∧ strIn "alice" (strLower (effective_final_url c2_profile)) = true
  ∧ c2_profile.metadata.source = MetaV.str "sherlock"
  ∧ c2_profile.existe = true := by decide

/-- Claim C2 (amended): for a manifest-sourced record the strict filter
drops unconditionally on the deny-list and unconditionally on a suspicious
final-URL fragment; identifier evidence never rescues such a record. -/
theorem strict_filter_denylist_amended (p : SocialProfile) (username : String)
    (hsrc : p.metadata.source = MetaV.str "sherlock") :
    (p.network_name ∈ STRICT_SHERLOCK_DENYLIST →
        strict_keep_profile p username = false)
  ∧ (STRICT_SUSPICIOUS_URL_PARTS.any
        (fun part => strIn part (strLower (effective_final_url p))) = true →
        strict_keep_profile p username = false) := by
  constructor
  · intro hden
    by_cases hex : p.existe <;> simp [strict_keep_profile, hsrc, hden, hex]
  · intro hsus
    by_cases hex : p.existe <;>
      by_cases hden : p.network_name ∈ STRICT_SHERLOCK_DENYLIST <;>
      simp [strict_keep_profile, hsrc, hden, hex, hsus]

/-- Witness for the amended C2: the deny-listed record with identifier
evidence in its URL is dropped. -/
theorem strict_filter_denylist_amended_witness :
    strict_keep_profile c2_profile "alice" = false :=
  (strict_filter_denylist_amended c2_profile "alice" rfl).1 (by decide)

/-- Counterexample to claim C3: a manifest-sourced record off the deny-list
with no suspicious URL fragment is dropped when the identifier appears in
none of its final URL, title and description, although the claim says such a
record is kept. -/
theorem strict_evidence_counterexample :
    strict_keep_profile c3_profile "alice" = false
  ∧ c3_profile.network_name ∉ STRICT_SHERLOCK_DENYLIST
  ∧ STRICT_SUSPICIOUS_URL_PARTS.any
      (fun part => strIn part (strLower (effective_final_url c3_profile))) = false
  ∧ strIn "alice" (strLower (effective_final_url c3_profile)) = false
  ∧ c3_profile.metadata.source = MetaV.str "sherlock"
  ∧ c3_profile.existe = true := by decide

/-- Claim C3 (amended): for a manifest-sourced record off the deny-list with
no suspicious URL fragment, the strict filter keeps the record if and only
if the identifier appears case-insensitively in the final URL, the extracted
title, or the extracted description; with no identifier evidence the record
is dropped (the filter demands positive evidence, it is not deny-biased). -/
theorem strict_filter_evidence_amended (p : SocialProfile) (username : String)
    (hex : p.existe = true)
    (hsrc : p.metadata.source = MetaV.str "sherlock")
    (hden : p.network_name ∉ STRICT_SHERLOCK_DENYLIST)
    (hsus : STRICT_SUSPICIOUS_URL_PARTS.any
        (fun part => strIn part (strLower (effective_final_url p))) = false) :
    strict_keep_profile p username = true
      ↔ (strIn (strLower username) (strLower (effective_final_url p)) = true
         ∨ (∃ t, p.metadata.title = MetaV.str t
              ∧ strIn (strLower username) (strLower t) = true)
         ∨ (∃ d, p.metadata.meta_description = MetaV.str d
              ∧ strIn (strLower username) (strLower d) = true)) := by
  simp only [strict_keep_profile, hex, hsrc, hsus]
  rcases hti : p.metadata.title with _ | t | _ <;>
    rcases hde : p.metadata.meta_description with _ | d | _ <;>
    by_cases hu : strIn (strLower username) (strLower (effective_final_url p)) = true <;>
    simp [hden, hu, hti, hde]

/-- Witness for the amended C3: a clean record whose final URL contains the
identifier is kept. -/
theorem strict_filter_evidence_amended_witness :
    strict_keep_profile kept_profile "alice" = true := by
  have h := strict_filter_evidence_amended kept_profile "alice" rfl rfl
    (by decide) (by decide)
  exact h.mpr (Or.inl (by decide))

/-- Counterexample to claim C7: with the non-null category set consisting of
social, an entry without a category is kept by the filter, although the
claim says every entry without a category is dropped. -/
theorem filter_no_category_counterexample :
    filter_username_sites [c7_site] (some ["social"]) false = [c7_site]
  ∧ c7_site.cat = none := by decide

/-- The rejection test passes exactly when any non-empty category set
admits the lower-cased non-empty entry category. -/
theorem site_cat_reject_eq_false (categories : Option (List String))
    (cat : Option String) :
    site_cat_reject categories cat = false
      ↔ (∀ cl, categories = some cl → cl ≠ [] →
          ∀ c, cat = some c → c ≠ "" → strLower c ∈ cl) := by
  rcases categories with _ | cl
  · simp [site_cat_reject]
  · rcases cat with _ | c
    · simp [site_cat_reject]
    · by_cases h1 : cl = [] <;> by_cases h2 : c = "" <;>
        by_cases h3 : strLower c ∈ cl <;>
        simp [site_cat_reject, h1, h2, h3]

/-- Claim C7 (amended): when the category set is non-empty, an entry with a
non-empty category is kept iff its lower-cased category is a member of the
set (the CLI lower-cases the set it passes, which makes the test
case-insensitive end to end); entries with a missing or empty category are
always kept, and an empty or null set disables category filtering
altogether.  NSFW filtering applies independently. -/
theorem filter_sites_amended (sites : List UsernameSite)
    (categories : Option (List String)) (no_nsfw : Bool) (s : UsernameSite) :
    s ∈ filter_username_sites sites categories no_nsfw
      ↔ (s ∈ sites
          ∧ (no_nsfw = true → site_is_nsfw s.cat = false)
          ∧ (∀ cl, categories = some cl → cl ≠ [] →
              ∀ c, s.cat = some c → c ≠ "" → strLower c ∈ cl)) := by
  simp only [filter_username_sites, List.mem_filterMap]
  constructor
  · rintro ⟨a, ha, hfa⟩
    by_cases h1 : (no_nsfw && site_is_nsfw a.cat) = true
    · rw [if_pos h1] at hfa
      exact Option.noConfusion hfa
    · rw [if_neg h1] at hfa
      by_cases h2 : site_cat_reject categories a.cat = true
      · rw [if_pos h2] at hfa
        exact Option.noConfusion hfa
      · rw [if_neg h2] at hfa
        have heq : a = s := Option.some.inj hfa
        subst heq
        rw [Bool.not_eq_true] at h2
        refine ⟨ha, fun hn => ?_, (site_cat_reject_eq_false categories a.cat).mp h2⟩
        rw [hn] at h1
        simpa using h1
  · rintro ⟨hs, hn, hcat⟩
    refine ⟨s, hs, ?_⟩
    have h1 : (no_nsfw && site_is_nsfw s.cat) = false := by
      cases hno : no_nsfw
      · rfl
      · simp [hn hno]
    have h2 : site_cat_reject categories s.cat = false :=
      (site_cat_reject_eq_false categories s.cat).mpr hcat
    rw [if_neg (by simp [h1]), if_neg (by simp [h2])]

/-- Counterexample to claim C9: two adjacent non-alphanumeric characters in
the site name produce two adjacent separators in the slug; runs are not
collapsed. -/
theorem slug_counterexample :
    slug "a!!b" = "a--b"
  ∧ strIn "--" (slug "a!!b") = true
  ∧ slug "a!!b" ≠ "a-b" := by decide

/-- The accumulator loop of the slug is a per-character map. -/
theorem slug_loop_eq (l acc : List Char) :
    slug_loop acc l = acc.reverse ++ l.map slug_char := by
  induction l generalizing acc with
  | nil => simp [slug_loop]
  | cons c cs ih => simp [slug_loop, ih]

/-- Dropping leading dashes is a dropWhile. -/
theorem drop_dash_eq (l : List Char) :
    drop_dash l = l.dropWhile (fun c => c = '-') := by
  induction l with
  | nil => rfl
  | cons c cs ih =>
      by_cases hc : c = '-' <;> simp [drop_dash, List.dropWhile_cons, hc, ih]

/-- The final fallback-and-truncate step of the slug stays within 60
characters and is never empty. -/
theorem slug_final_step (m : List Char) (hm : m.length ≤ 60) :
    (slug_final m).length ≤ 60 ∧ slug_final m ≠ "" := by
  cases m with
  | nil => exact ⟨by decide, by decide⟩
  | cons c cs =>
      refine ⟨by simpa [slug_final, String.length] using hm, ?_⟩
      intro h
      have hd := congrArg String.data h
      simp [slug_final] at hd

/-- Claim C9 (amended): the network slug stored on an emitted record is the
site name lower-cased with each non-alphanumeric character other than dash
and underscore replaced by a single dash individually (runs of such
characters are NOT collapsed; dash and underscore are preserved), stripped
of leading and trailing dashes, truncated to 60 characters, with the empty
result replaced by the string site.  The slug is never empty and never
longer than 60 characters. -/
theorem slug_amended (name : String) :
    slug name = slug_spec name
  ∧ (slug name).length ≤ 60
  ∧ slug name ≠ "" := by
  have hspec : slug name = slug_spec name := by
    simp only [slug, slug_spec, strip_dashes, slug_loop_eq, drop_dash_eq,
      List.reverse_nil, List.nil_append]
  have hslug : slug name =
      slug_final
        ((strip_dashes (slug_loop [] (strLower (strTrim name)).data)).take 60) :=
    rfl
  have hlen :
      ((strip_dashes (slug_loop [] (strLower (strTrim name)).data)).take 60).length
        ≤ 60 := List.length_take_le 60 _
  have h := slug_final_step _ hlen
  exact ⟨hspec, by rw [hslug]; exact h.1, by rw [hslug]; exact h.2⟩

/-- A non-empty needle never occurs in the empty string. -/
theorem strIn_empty_of_ne (s : String) (h : s ≠ "") : strIn s "" = false := by
  cases s with
  | mk data =>
    cases data with
    | nil => exact absurd (by decide) h
    | cons c cs => rfl

/-- A marker with only non-empty strings never fires on the empty body. -/
theorem contains_any_empty (em : Needle)
    (h : ∀ s ∈ needle_strings em, s ≠ "") : contains_any "" em = false := by
  cases em with
  | str s =>
      by_cases hs : s = ""
      · simp [contains_any, hs]
      · simp [contains_any, hs, strIn_empty_of_ne s hs]
  | list xs =>
      rcases xs with _ | ⟨x, rest⟩
      · simp [contains_any]
      · simp only [contains_any]
        rw [if_neg (List.cons_ne_nil x rest)]
        rw [any_needle_strings, List.any_eq_false]
        intro n hn
        simp [strIn_empty_of_ne n (h n (by simpa [needle_strings] using hn))]
  | other => rfl

/-- Claim C10: in the manifest runner a HEAD probe classifies and extracts
against the empty body: when the rule reaches the message branch and every
marker string is non-empty, the verdict is exists equals true regardless of
the actual page content and status, and the emitted record carries no
body-derived page metadata. -/
theorem sherlock_head_empty_body (transport : String → String → TResult)
    (site_name : String) (info : SherlockInfo) (username url_t : String)
    (hurl : info.url = UrlV.str url_t) (hne : url_t ≠ "")
    (hm : request_method_of info = "HEAD")
    (h1 : "response_url" ∉ error_types_of info.errorType)
    (h2 : "status_code" ∉ error_types_of info.errorType)
    (h3 : "message" ∈ error_types_of info.errorType)
    (h4 : ∀ s ∈ needle_strings info.errorMsg, s ≠ "")
    (status : Int) (final_url body : String)
    (ht : transport "HEAD" (interpolate url_t username)
        = TResult.ok status final_url body) :
    classify (error_types_of info.errorType) info.errorCode info.errorMsg
        status "" = true
  ∧ extract_html_metadata "" final_url
      = { title := none, meta_description := none, og_image := none }
  ∧ ∃ p, sherlock_check transport site_name info username = some p
      ∧ p.existe = true
      ∧ p.metadata.title = MetaV.missing
      ∧ p.metadata.meta_description = MetaV.missing
      ∧ p.metadata.og_image = MetaV.missing
      ∧ p.bio = none
      ∧ p.imagen_url = none := by
  have hcl : classify (error_types_of info.errorType) info.errorCode
      info.errorMsg status "" = true := by
    simp only [classify, if_neg h1, if_neg h2, if_pos h3]
    simp [contains_any_empty info.errorMsg h4]
  refine ⟨hcl, rfl, ?_⟩
  have hck : sherlock_check transport site_name info username
      = some { url := final_url
               username := username
               network_name := slug site_name
               existe := true
               metadata :=
                 { source := MetaV.str "sherlock"
                   site_name := site_name
                   status_code := status
                   final_url := some final_url
                   title := MetaV.missing
                   meta_description := MetaV.missing
                   og_image := MetaV.missing }
               bio := none
               imagen_url := none } := by
    simp only [sherlock_check, hurl]
    rw [if_neg hne, hm]
    simp only [eq_self_iff_true, if_true]
    rw [ht]
    simp [hcl]
    exact ⟨⟨rfl, rfl, rfl⟩, rfl, rfl⟩
  exact ⟨_, hck, rfl, rfl, rfl, rfl, rfl, rfl⟩

/-- Witness for C10: a HEAD site with a message rule emits a record with no
page metadata even though the transport returns a 404 body that contains the
not-found marker. -/
theorem sherlock_head_empty_body_witness :
    classify (error_types_of head_info.errorType) head_info.errorCode
        head_info.errorMsg 404 "" = true
  ∧ extract_html_metadata "" "https://head.example/alice"
      = { title := none, meta_description := none, og_image := none }
  ∧ ∃ p, sherlock_check head_transport "HeadSite" head_info "alice" = some p
      ∧ p.existe = true
      ∧ p.metadata.title = MetaV.missing
      ∧ p.metadata.meta_description = MetaV.missing
      ∧ p.metadata.og_image = MetaV.missing
      ∧ p.bio = none
      ∧ p.imagen_url = none := by
  exact sherlock_head_empty_body head_transport "HeadSite" head_info "alice"
    "https://head.example/{}" rfl (by decide) (by decide) (by decide)
    (by decide) (by decide) (by decide) 404 "https://head.example/alice"
    "Page not found" rfl

/-- Counterexample to claim C8: a callback that raises on the initial tick
(done equals 0) makes the whole run raise, so not every callback exception
is caught and discarded. -/
theorem sherlock_initial_tick_counterexample :
    run_sherlock_username demo_manifest ["alice"] false
        (some (fun done _ _ => done == 0)) (fun _ _ _ => none)
      = Except.error () := rfl

/-- Claim C8 (amended): exceptions raised by the progress callback on the
per-completion invocations are caught and discarded and never interrupt
probing, but an exception raised on the initial tick (the one reporting the
total before any task starts) propagates to the caller and aborts the run. -/
theorem sherlock_callback_amended (m : List (String × MVal))
    (usernames : List String) (no_nsfw : Bool)
    (outcome : String → SherlockInfo → String → Option SocialProfile)
    (raises : Nat → Nat → String → Bool) :
    (raises 0 (sherlock_total m usernames no_nsfw) "" = false →
        ∃ r, run_sherlock_username m usernames no_nsfw (some raises) outcome
          = Except.ok r)
  ∧ (raises 0 (sherlock_total m usernames no_nsfw) "" = true →
        run_sherlock_username m usernames no_nsfw (some raises) outcome
          = Except.error ()) := by
  simp only [sherlock_total] at *
  constructor
  · intro h
    simp only [run_sherlock_username]
    rw [if_neg (by simp [h])]
    exact ⟨_, rfl⟩
  · intro h
    simp only [run_sherlock_username]
    rw [if_pos (by simp [h])]

/-- Witness for the amended C8: a callback raising on every completion tick
(done equals 1) still lets the run finish normally. -/
theorem sherlock_callback_amended_witness :
    ∃ r, run_sherlock_username demo_manifest ["alice"] false
        (some (fun done _ _ => done == 1)) (fun _ _ _ => none)
      = Except.ok r :=
  (sherlock_callback_amended demo_manifest ["alice"] false
    (fun _ _ _ => none) (fun done _ _ => done == 1)).1 (by decide)

/-- Counterexample to claim C1: with a one-entry catalog and an empty
identifier list, zero probe tasks are created but the total reported to the
progress callback is 1, not 0. -/
theorem sherlock_total_counterexample :
    (sherlock_tasks demo_manifest [] false).length = 0
  ∧ sherlock_total demo_manifest [] false = 1 := by decide

/-- The length of a per-item cross product. -/
theorem length_flatMap_prod (l : List (String × SherlockInfo))
    (us : List String) :
    (l.flatMap (fun it => us.map (fun u => (it.1, it.2, u)))).length
      = l.length * us.length := by
  induction l with
  | nil => simp
  | cons a l ih =>
      simp only [List.flatMap_cons, List.length_append, List.length_map, ih,
        List.length_cons, Nat.succ_mul]
      omega

/-- A key of the filtered manifest is a key of the manifest. -/
theorem mem_sherlock_items_key (m : List (String × MVal)) (no_nsfw : Bool)
    (k : String) (hk : k ∈ (sherlock_items m no_nsfw).map Prod.fst) :
    k ∈ m.map Prod.fst := by
  simp only [List.mem_map] at hk ⊢
  obtain ⟨it, hit, hfst⟩ := hk
  simp only [sherlock_items, List.mem_filterMap] at hit
  obtain ⟨p, hp, hfp⟩ := hit
  refine ⟨p, hp, ?_⟩
  by_cases h1 : p.1 = "$schema"
  · rw [if_pos h1] at hfp
    exact Option.noConfusion hfp
  · rw [if_neg h1] at hfp
    cases hv : p.2 with
    | nondict =>
        rw [hv] at hfp
        exact Option.noConfusion hfp
    | dict info =>
        rw [hv] at hfp
        have hfp2 : (if (no_nsfw && info.isNSFW) = true then none
            else some (p.1, info)) = some it := hfp
        by_cases h2 : (no_nsfw && info.isNSFW) = true
        · rw [if_pos h2] at hfp2
          exact Option.noConfusion hfp2
        · rw [if_neg h2] at hfp2
          cases hfp2
          exact hfst

/-- Filtering the manifest preserves distinctness of the site keys. -/
theorem sherlock_items_keys_nodup (m : List (String × MVal)) (no_nsfw : Bool)
    (h : (m.map Prod.fst).Nodup) :
    ((sherlock_items m no_nsfw).map Prod.fst).Nodup := by
  induction m with
  | nil => simp [sherlock_items]
  | cons p m ih =>
      simp only [List.map_cons, List.nodup_cons] at h
      obtain ⟨hk, hrest⟩ := h
      have ihm := ih hrest
      rcases hfp : (if p.1 = "$schema" then none
        else match p.2 with
          | MVal.nondict => none
          | MVal.dict info =>
              if no_nsfw && info.isNSFW then none
              else some (p.1, info)) with _ | it
      · have heq : sherlock_items (p :: m) no_nsfw = sherlock_items m no_nsfw :=
          List.filterMap_cons_none hfp
        rw [heq]
        exact ihm
      · have heq : sherlock_items (p :: m) no_nsfw
            = it :: sherlock_items m no_nsfw :=
          List.filterMap_cons_some hfp
        rw [heq]
        simp only [List.map_cons, List.nodup_cons]
        refine ⟨?_, ihm⟩
        intro hmem
        have hit1 : it.1 = p.1 := by
          by_cases h1 : p.1 = "$schema"
          · rw [if_pos h1] at hfp
            exact Option.noConfusion hfp
          · rw [if_neg h1] at hfp
            cases hv : p.2 with
            | nondict =>
                rw [hv] at hfp
                exact Option.noConfusion hfp
            | dict info =>
                rw [hv] at hfp
                have hfp2 : (if (no_nsfw && info.isNSFW) = true then none
                    else some (p.1, info)) = some it := hfp
                by_cases h2 : (no_nsfw && info.isNSFW) = true
                · rw [if_pos h2] at hfp2
                  exact Option.noConfusion hfp2
                · rw [if_neg h2] at hfp2
                  cases hfp2
                  rfl
        apply hk
        have hmem2 := mem_sherlock_items_key m no_nsfw it.1 hmem
        rw [hit1] at hmem2
        exact hmem2

/-- Distinct manifest keys and distinct identifiers give distinct tasks. -/
theorem sherlock_tasks_nodup (m : List (String × MVal))
    (usernames : List String) (no_nsfw : Bool) (hu : usernames.Nodup)
    (hkeys : (m.map Prod.fst).Nodup) :
    (sherlock_tasks m usernames no_nsfw).Nodup := by
  have hpw : (sherlock_items m no_nsfw).Pairwise (fun a b => a.1 ≠ b.1) :=
    List.pairwise_map.mp (sherlock_items_keys_nodup m no_nsfw hkeys)
  simp only [sherlock_tasks]
  rw [List.nodup_flatMap]
  constructor
  · intro it _
    exact hu.map (fun u v huv => by
      have := congrArg (fun t => t.2.2) huv
      simpa using this)
  · refine hpw.imp ?_
    intro a b hab
    simp only [Function.onFun]
    rw [List.disjoint_left]
    intro t hta htb
    obtain ⟨u, _, rfl⟩ := List.mem_map.mp hta
    obtain ⟨v, _, hv⟩ := List.mem_map.mp htb
    exact hab (congrArg Prod.fst hv).symm

/-- In a duplicate-free list every member has multiplicity one. -/
theorem countP_eq_one_of_nodup_mem {α : Type} [DecidableEq α] (t : α)
    (l : List α) (h : l.Nodup) (ht : t ∈ l) :
    l.countP (fun x => decide (x = t)) = 1 := by
  induction l with
  | nil => cases ht
  | cons a l ih =>
      rw [List.countP_cons]
      rcases List.mem_cons.mp ht with rfl | hmem
      · have hz : l.countP (fun x => decide (x = t)) = 0 := by
          rw [List.countP_eq_zero]
          intro b hb
          simp only [decide_eq_true_eq]
          intro hbt
          subst hbt
          exact (List.nodup_cons.mp h).1 hb
        simp [hz]
      · have ha : ¬(a = t) := fun h2 => (List.nodup_cons.mp h).1 (h2 ▸ hmem)
        have ih2 := ih (List.nodup_cons.mp h).2 hmem
        simp [ha, ih2]

/-- Claim C1 (amended): the runner creates exactly one probe task per
(filtered site, identifier) pair, each distinct pair exactly once when the
manifest keys and identifiers are distinct; with a non-raising callback the
delivered done values are 0 followed by 1..n in completion order, so the
final done value equals the task count and is delivered exactly once; the
total reported before any task starts is the filtered-site count times
max(1, number of identifiers), which equals the task count whenever the
identifier list is non-empty (and exceeds it when the list is empty). -/
theorem sherlock_progress_amended (m : List (String × MVal))
    (usernames : List String) (no_nsfw : Bool)
    (outcome : String → SherlockInfo → String → Option SocialProfile) :
    (sherlock_tasks m usernames no_nsfw).length
        = (sherlock_items m no_nsfw).length * usernames.length
  ∧ (usernames ≠ [] →
        sherlock_total m usernames no_nsfw
          = (sherlock_tasks m usernames no_nsfw).length)
  ∧ (∃ r, run_sherlock_username m usernames no_nsfw
          (some (fun _ _ _ => false)) outcome = Except.ok r
        ∧ r.2.head? = some (0, sherlock_total m usernames no_nsfw, "")
        ∧ (r.2.map (fun t => t.1)).count
            (sherlock_tasks m usernames no_nsfw).length = 1
        ∧ (r.2.map (fun t => t.1)).getLast?
            = some (sherlock_tasks m usernames no_nsfw).length)
  ∧ (usernames.Nodup → (m.map Prod.fst).Nodup →
        ∀ t ∈ sherlock_tasks m usernames no_nsfw,
          (sherlock_tasks m usernames no_nsfw).countP
            (fun x => decide (x = t)) = 1) := by
  have hlen : (sherlock_tasks m usernames no_nsfw).length
      = (sherlock_items m no_nsfw).length * usernames.length :=
    length_flatMap_prod _ _
  refine ⟨hlen, ?_, ?_, ?_⟩
  · intro hne
    have h1 : 1 ≤ usernames.length := List.length_pos.mpr hne
    simp only [sherlock_total, hlen]
    rw [Nat.max_eq_right h1]
  · have hrun : run_sherlock_username m usernames no_nsfw
        (some (fun _ _ _ => false)) outcome
        = Except.ok
            ((sherlock_tasks m usernames no_nsfw).filterMap
               (fun t => outcome t.1 t.2.1 t.2.2),
             (0, sherlock_total m usernames no_nsfw, "")
               :: (sherlock_tasks m usernames no_nsfw).enum.map
                    (fun p => (p.1 + 1, sherlock_total m usernames no_nsfw,
                      task_label p.2.1 p.2.2.2))) := rfl
    have hmap : ((0, sherlock_total m usernames no_nsfw, "")
          :: (sherlock_tasks m usernames no_nsfw).enum.map
               (fun p => (p.1 + 1, sherlock_total m usernames no_nsfw,
                 task_label p.2.1 p.2.2.2))).map (fun t => t.1)
        = 0 :: (List.range (sherlock_tasks m usernames no_nsfw).length).map
            (fun i => i + 1) := by
      simp only [List.map_cons, List.map_map]
      congr 1
      conv_rhs => rw [← List.enum_map_fst (sherlock_tasks m usernames no_nsfw)]
      rw [List.map_map]
      rfl
    refine ⟨_, hrun, rfl, ?_, ?_⟩
    · rw [hmap]
      rcases hn : (sherlock_tasks m usernames no_nsfw).length with _ | k
      · simp
      · have hnd : ((List.range (k + 1)).map (fun i => i + 1)).Nodup :=
          List.Nodup.map (fun a b hab => by omega) (List.nodup_range (k + 1))
        have hmem : k + 1 ∈ (List.range (k + 1)).map (fun i => i + 1) :=
          List.mem_map.mpr ⟨k, List.mem_range.mpr (by omega), rfl⟩
        simp [List.count_cons, List.count_eq_one_of_mem hnd hmem]
    · rw [hmap]
      rcases hn : (sherlock_tasks m usernames no_nsfw).length with _ | k
      · simp
      · rw [List.range_succ, List.map_append, List.map_singleton,
          ← List.cons_append, List.getLast?_concat]
  · intro hu hk t ht
    exact countP_eq_one_of_nodup_mem t _
      (sherlock_tasks_nodup m usernames no_nsfw hu hk) ht

/-- Witness for the amended C1: on a one-entry manifest with one identifier
the task count is 1, the reported total is 1, and the task occurs once. -/
theorem sherlock_progress_amended_witness :
    (sherlock_tasks demo_manifest ["alice"] false).length = 1
  ∧ sherlock_total demo_manifest ["alice"] false = 1
  ∧ ∀ t ∈ sherlock_tasks demo_manifest ["alice"] false,
      (sherlock_tasks demo_manifest ["alice"] false).countP
        (fun x => decide (x = t)) = 1 := by
  have h := sherlock_progress_amended demo_manifest ["alice"] false
    (fun _ _ _ => none)
  exact ⟨by decide, (h.2.1 (by decide)).trans (by decide),
    h.2.2.2 (by decide) (by decide)⟩

/-- Witness for C6: a concrete probe matching expected status and substring
emits a record. -/
theorem site_match_characterization_witness :
    (site_check c7_site "alice"
        (TResult.ok 200 "https://x.example/alice" "body ok")).isSome = true := by
  rw [(site_match_characterization c7_site "alice" 200 "https://x.example/alice"
    "body ok").2]
  decide

/-- Witness for the amended C7: the category-free entry passes the filter
with a non-empty category set. -/
theorem filter_sites_amended_witness :
    c7_site ∈ filter_username_sites [c7_site] (some ["social"]) false := by
  exact (filter_sites_amended [c7_site] (some ["social"]) false c7_site).mpr
    ⟨List.mem_singleton.mpr rfl, fun h => by decide,
     fun cl hcl hne c hc => Option.noConfusion hc⟩

/-- Witness for the amended C9: a name with spaces and punctuation. -/
theorem slug_amended_witness :
    slug "My Site!" = slug_spec "My Site!"
  ∧ (slug "My Site!").length ≤ 60
  ∧ slug "My Site!" ≠ "" :=
  slug_amended "My Site!"

end OsintD2
